import Mathlib

/-
Verification of the Issuepedia reputation/badge engine.

The definitions below are a shallow embedding of the TypeScript source:
  - server/reputationSystem.ts : handlePromptVote, handleReviewSubmission,
    handleAccurateReview, checkAndAwardBadges, initializeDefaultBadges
    (the last one is named ensureDefaultBadges here, for lexical reasons),
  - server/storage.ts          : the DatabaseStorage methods used by the engine,
  - server/routes.ts           : the request handlers for POST /api/v1/votes,
    DELETE /api/v1/votes/:promptId, POST /api/v1/reviews, POST /api/v1/prompts
    and POST /api/v1/prompts/:id/fork.

The database is modelled as a `State` of in-memory tables (lists of rows).
Columns never read by the modelled logic (timestamps, titles, emails,
descriptions, comment bodies, ...) are omitted.  Row id generation,
foreign-key enforcement and unique-key conflicts of PostgreSQL are modelled
explicitly at the points where the SQL statements of the source rely on them:
an insert that would violate a foreign key or a primary key makes the request
fail before the engine runs, which is modelled as the identity on the state.
-/

namespace Issuepedia

/-- Vote type column of the votes table: the literal union 'upvote' | 'downvote'. -/
inductive VoteType where
  | upvote
  | downvote
  deriving DecidableEq

/-- Review vote column: the literal union 'approve' | 'reject'. -/
inductive ReviewVote where
  | approve
  | reject
  deriving DecidableEq

/-- Row of the users table (id, cached reputation). -/
structure User where
  id : String
  reputation : Int
  deriving DecidableEq

/-- Row of the prompts table (id, authorId, status, parentPromptId). -/
structure Prompt where
  id : String
  authorId : String
  status : String
  parentPromptId : Option String
  deriving DecidableEq

/-- Row of the votes table; primary key is (userId, promptId). -/
structure Vote where
  userId : String
  promptId : String
  voteType : VoteType
  deriving DecidableEq

/-- Row of the reviews table. -/
structure Review where
  promptId : String
  reviewerId : String
  vote : ReviewVote
  deriving DecidableEq

/-- Row of the reputation_events ledger table. -/
structure ReputationEvent where
  userId : String
  eventType : String
  changeAmount : Int
  relatedPromptId : Option String
  deriving DecidableEq

/-- Row of the badges catalog table. -/
structure Badge where
  id : Nat
  name : String
  deriving DecidableEq

/-- Row of the user_badges table; primary key is (userId, badgeId). -/
structure UserBadge where
  userId : String
  badgeId : Nat
  deriving DecidableEq

/-- Row of the prompt_techniques table. -/
structure Technique where
  id : Nat
  name : String
  deriving DecidableEq

/-- Row of the prompt_technique_links table; primary key is (promptId, techniqueId). -/
structure TechniqueLink where
  promptId : String
  techniqueId : Nat
  deriving DecidableEq

/-- The database state: one list of rows per table touched by the engine. -/
structure State where
  users : List User
  prompts : List Prompt
  votes : List Vote
  reviews : List Review
  reputationEvents : List ReputationEvent
  badges : List Badge
  userBadges : List UserBadge
  techniques : List Technique
  links : List TechniqueLink
  deriving DecidableEq

/-! ### Storage layer (server/storage.ts) -/

/-- storage.getUser: select the user row with the given id. -/
def getUser (s : State) (id : String) : Option User :=
  s.users.find? (fun u => u.id == id)

/-- storage.upsertUser: insert a user (reputation defaults to 0); on id
conflict the update touches only profile columns, so reputation-wise the
state is unchanged. -/
def upsertUser (s : State) (id : String) : State :=
  if s.users.any (fun u => u.id == id) then s
  else { s with users := s.users ++ [{ id := id, reputation := 0 }] }

/-- storage.updateUserReputation: the atomic increment
`set reputation = reputation + changeAmount where id = userId`. -/
def updateUserReputation (s : State) (userId : String) (changeAmount : Int) : State :=
  { s with users := s.users.map (fun u =>
      if u.id == userId then { u with reputation := u.reputation + changeAmount } else u) }

/-- storage.createReputationEvent: append a ledger row. -/
def createReputationEvent (s : State) (e : ReputationEvent) : State :=
  { s with reputationEvents := s.reputationEvents ++ [e] }

/-- storage.getPrompt: select the prompt row with the given id. -/
def getPrompt (s : State) (id : String) : Option Prompt :=
  s.prompts.find? (fun p => p.id == id)

/-- storage.getPrompts with the optional status and authorId filters used by
the engine (the engine never passes limit or offset). -/
def getPrompts (s : State) (authorId? : Option String) (status? : Option String) : List Prompt :=
  s.prompts.filter (fun p =>
    (match status? with
     | some st => p.status == st
     | none => true) &&
    (match authorId? with
     | some a => p.authorId == a
     | none => true))

/-- storage.updatePrompt as called by the review route: set the status column
of the row with the given id. -/
def updatePromptStatus (s : State) (id : String) (status : String) : State :=
  { s with prompts := s.prompts.map (fun p =>
      if p.id == id then { p with status := status } else p) }

/-- storage.createVote: insert with onConflictDoUpdate on (userId, promptId),
the conflict action setting voteType. -/
def createVote (s : State) (v : Vote) : State :=
  if s.votes.any (fun w => w.userId == v.userId && w.promptId == v.promptId) then
    { s with votes := s.votes.map (fun w =>
        if w.userId == v.userId && w.promptId == v.promptId
        then { w with voteType := v.voteType } else w) }
  else { s with votes := s.votes ++ [v] }

/-- storage.getUserVoteForPrompt: select the vote of userId on promptId. -/
def getUserVoteForPrompt (s : State) (userId promptId : String) : Option Vote :=
  s.votes.find? (fun w => w.userId == userId && w.promptId == promptId)

/-- storage.deleteVote: delete the vote of userId on promptId. -/
def deleteVote (s : State) (userId promptId : String) : State :=
  { s with votes := s.votes.filter (fun w => !(w.userId == userId && w.promptId == promptId)) }

/-- storage.createReview: insert a review row. -/
def createReview (s : State) (r : Review) : State :=
  { s with reviews := s.reviews ++ [r] }

/-- storage.awardBadge: insert with onConflictDoNothing on the
(userId, badgeId) primary key. -/
def awardBadge (s : State) (userId : String) (badgeId : Nat) : State :=
  if s.userBadges.any (fun ub => ub.userId == userId && ub.badgeId == badgeId) then s
  else { s with userBadges := s.userBadges ++ [{ userId := userId, badgeId := badgeId }] }

/-- storage.getUserBadges: all badge awards of a user. -/
def getUserBadges (s : State) (userId : String) : List UserBadge :=
  s.userBadges.filter (fun ub => ub.userId == userId)

/-- storage.getPromptTechniques: inner join of the link table with the
technique catalog, restricted to one prompt. -/
def getPromptTechniques (s : State) (promptId : String) : List Technique :=
  (s.links.filter (fun l => l.promptId == promptId)).filterMap
    (fun l => s.techniques.find? (fun t => t.id == l.techniqueId))

/-- Serial id generation for the badges table. -/
def nextBadgeId (s : State) : Nat :=
  s.badges.foldl (fun m b => max m b.id) 0 + 1

/-- storage.createBadge: insert a badge row with a fresh serial id. -/
def createBadge (s : State) (name : String) : State :=
  { s with badges := s.badges ++ [{ id := nextBadgeId s, name := name }] }

/-- storage.createTechnique, with the serial id made explicit; a duplicate id
insert is rejected by the primary key. -/
def createTechnique (s : State) (id : Nat) (name : String) : State :=
  if s.techniques.any (fun t => t.id == id) then s
  else { s with techniques := s.techniques ++ [{ id := id, name := name }] }

/-- storage.linkPromptToTechnique: insert with onConflictDoNothing on the
(promptId, techniqueId) primary key. -/
def linkPromptToTechnique (s : State) (promptId : String) (techniqueId : Nat) : State :=
  if s.links.any (fun l => l.promptId == promptId && l.techniqueId == techniqueId) then s
  else { s with links := s.links ++ [{ promptId := promptId, techniqueId := techniqueId }] }

/-! ### Reputation engine (server/reputationSystem.ts) -/

/-- REPUTATION_VALUES.PROMPT_UPVOTED. -/
def PROMPT_UPVOTED : Int := 10

/-- REPUTATION_VALUES.PROMPT_DOWNVOTED. -/
def PROMPT_DOWNVOTED : Int := -2

/-- REPUTATION_VALUES.REVIEW_APPROVED. -/
def REVIEW_APPROVED : Int := 15

/-- REPUTATION_VALUES.REVIEW_REJECTED. -/
def REVIEW_REJECTED : Int := -5

/-- REPUTATION_VALUES.ACCURATE_REVIEW. -/
def ACCURATE_REVIEW : Int := 5

/-- REPUTATION_VALUES.FIRST_PROMPT_APPROVED. -/
def FIRST_PROMPT_APPROVED : Int := 50

/-- REPUTATION_VALUES.COMMENT_UPVOTED (never read by any modelled caller). -/
def COMMENT_UPVOTED : Int := 2

/-- String form of a vote type, as interpolated into event type strings. -/
def voteTypeStr : VoteType → String
  | VoteType.upvote => "upvote"
  | VoteType.downvote => "downvote"

/-- String form of a review vote, as interpolated into event type strings. -/
def reviewVoteStr : ReviewVote → String
  | ReviewVote.approve => "approve"
  | ReviewVote.reject => "reject"

/-- handlePromptVote from reputationSystem.ts, translated statement by
statement: look up the prompt (missing prompt is a silent return), reverse
the previous vote's delta if a previous vote type was passed, add the new
vote's delta, and when the net change is nonzero apply it to the author's
cached reputation and append one ledger event carrying the same amount. -/
def handlePromptVote (s : State) (promptId : String) (voteType : VoteType)
    (previousVoteType : Option VoteType) : State :=
  match getPrompt s promptId with
  | none => s
  | some prompt =>
    let authorId := prompt.authorId
    let c0 : Int := 0
    let c1 : Int :=
      match previousVoteType with
      | some VoteType.upvote => c0 - PROMPT_UPVOTED
      | some VoteType.downvote => c0 - PROMPT_DOWNVOTED
      | none => c0
    let changeAmount : Int :=
      match voteType with
      | VoteType.upvote => c1 + PROMPT_UPVOTED
      | VoteType.downvote => c1 + PROMPT_DOWNVOTED
    if changeAmount ≠ 0 then
      createReputationEvent (updateUserReputation s authorId changeAmount)
        { userId := authorId,
          eventType := "prompt_" ++ voteTypeStr voteType ++ "d",
          changeAmount := changeAmount,
          relatedPromptId := some promptId }
    else s

/-- Character-list prefix test (helper for the substring test below). -/
def isPrefixChars : List Char → List Char → Bool
  | [], _ => true
  | _ :: _, [] => false
  | a :: as, b :: bs => a == b && isPrefixChars as bs

/-- Character-list substring test: does the needle occur in the haystack. -/
def containsChars : List Char → List Char → Bool
  | [], needle => needle.isEmpty
  | c :: rest, needle => isPrefixChars needle (c :: rest) || containsChars rest needle

/-- JavaScript String.prototype.includes, on Lean strings. -/
def containsSubstring (hay needle : String) : Bool :=
  containsChars hay.toList needle.toList

/-- BADGE_CONDITIONS.FIRST_COT: the user has exactly one approved prompt whose
linked techniques include one whose lowercased name includes
'chain-of-thought'. -/
def FIRST_COT (s : State) (userId : String) : Bool :=
  let prompts := getPrompts s (some userId) (some "approved")
  let cotPrompts := prompts.filter (fun p =>
    (getPromptTechniques s p.id).any (fun t =>
      containsSubstring t.name.toLower "chain-of-thought"))
  cotPrompts.length == 1

/-- BADGE_CONDITIONS.REPUTATION_500. -/
def REPUTATION_500 (s : State) (userId : String) : Bool :=
  match getUser s userId with
  | some u => decide (500 ≤ u.reputation)
  | none => false

/-- BADGE_CONDITIONS.REPUTATION_2000. -/
def REPUTATION_2000 (s : State) (userId : String) : Bool :=
  match getUser s userId with
  | some u => decide (2000 ≤ u.reputation)
  | none => false

/-- One guarded award block of checkAndAwardBadges: if the badge was found in
the catalog, is not in the held set read at entry, and its condition holds on
the current state, award it. -/
def tryAwardBadge (s : State) (userId : String) (heldIds : List Nat)
    (badge? : Option Badge) (cond : State → Bool) : State :=
  match badge? with
  | none => s
  | some b =>
    if !(heldIds.contains b.id) then
      (if cond s then awardBadge s userId b.id else s)
    else s

/-- checkAndAwardBadges from reputationSystem.ts: read the badge catalog and
the user's held badges once, then run the three guarded award blocks
(First CoT Prompt, Reviewer, Moderator) in order.  The unused promptId
parameter of the source is dropped. -/
def checkAndAwardBadges (s : State) (userId : String) : State :=
  let allBadges := s.badges
  let heldIds := (getUserBadges s userId).map (fun ub => ub.badgeId)
  let s1 := tryAwardBadge s userId heldIds
    (allBadges.find? (fun b => b.name == "First CoT Prompt"))
    (fun st => FIRST_COT st userId)
  let s2 := tryAwardBadge s1 userId heldIds
    (allBadges.find? (fun b => b.name == "Reviewer"))
    (fun st => REPUTATION_500 st userId)
  let s3 := tryAwardBadge s2 userId heldIds
    (allBadges.find? (fun b => b.name == "Moderator"))
    (fun st => REPUTATION_2000 st userId)
  s3

/-- handleReviewSubmission from reputationSystem.ts: look up the prompt
(missing prompt is a silent return), credit the author +15 or -5 with a
matching ledger event, and on approval award the +50 first-approval bonus
when the author's approved prompt count equals exactly 1; finally run the
badge evaluator for the author. -/
def handleReviewSubmission (s : State) (promptId reviewerId : String)
    (vote : ReviewVote) : State :=
  match getPrompt s promptId with
  | none => s
  | some prompt =>
    let authorId := prompt.authorId
    let changeAmount : Int :=
      match vote with
      | ReviewVote.approve => REVIEW_APPROVED
      | ReviewVote.reject => REVIEW_REJECTED
    let s2 := createReputationEvent (updateUserReputation s authorId changeAmount)
      { userId := authorId,
        eventType := "review_" ++ reviewVoteStr vote ++ "d",
        changeAmount := changeAmount,
        relatedPromptId := some promptId }
    let s3 :=
      match vote with
      | ReviewVote.approve =>
        let approvedPrompts := getPrompts s2 (some authorId) (some "approved")
        if approvedPrompts.length == 1 then
          createReputationEvent (updateUserReputation s2 authorId FIRST_PROMPT_APPROVED)
            { userId := authorId,
              eventType := "first_prompt_approved",
              changeAmount := FIRST_PROMPT_APPROVED,
              relatedPromptId := some promptId }
        else s2
      | ReviewVote.reject => s2
    checkAndAwardBadges s3 authorId

/-- handleAccurateReview from reputationSystem.ts (no caller exists in the
repository; included for completeness, excluded from the route machine). -/
def handleAccurateReview (s : State) (reviewerId promptId : String) : State :=
  createReputationEvent (updateUserReputation s reviewerId ACCURATE_REVIEW)
    { userId := reviewerId,
      eventType := "accurate_review",
      changeAmount := ACCURATE_REVIEW,
      relatedPromptId := some promptId }

/-- The startup badge seeding of reputationSystem.ts (insert-if-absent by
name over the four default badges); the source calls it
initializeDefaultBadges. -/
def ensureDefaultBadges (s : State) : State :=
  ["First CoT Prompt", "Reviewer", "Moderator", "First Contribution"].foldl
    (fun st name => if st.badges.any (fun b => b.name == name) then st else createBadge st name)
    s

/-! ### Request handlers (server/routes.ts) -/

/-- POST /api/v1/votes: the handler validates the body, reads any existing
vote, upserts the vote row, and calls handlePromptVote with the previous vote
type.  There is no reputation check of the voter.  The guard models the
session user and the votes-table foreign keys: a vote insert for a missing
user or prompt fails before the engine runs. -/
def votesPost (s : State) (userId promptId : String) (voteType : VoteType) : State :=
  if (getUser s userId).isNone || (getPrompt s promptId).isNone then s
  else
    let existingVote := getUserVoteForPrompt s userId promptId
    let s1 := createVote s { userId := userId, promptId := promptId, voteType := voteType }
    handlePromptVote s1 promptId voteType (existingVote.map (fun w => w.voteType))

/-- DELETE /api/v1/votes/:promptId: the handler only deletes the vote row; it
makes no reputation or ledger change of any kind. -/
def votesDelete (s : State) (userId promptId : String) : State :=
  deleteVote s userId promptId

/-- POST /api/v1/reviews: reject reviewers below 500 reputation, insert the
review (its prompt foreign key is modelled by the prompt-existence guard),
transition the prompt status, then run handleReviewSubmission. -/
def reviewsPost (s : State) (promptId reviewerId : String) (vote : ReviewVote) : State :=
  match getUser s reviewerId with
  | none => s
  | some u =>
    if u.reputation < 500 then s
    else if (getPrompt s promptId).isNone then s
    else
      let s1 := createReview s { promptId := promptId, reviewerId := reviewerId, vote := vote }
      let s2 := updatePromptStatus s1 promptId
        (match vote with
         | ReviewVote.approve => "approved"
         | ReviewVote.reject => "rejected")
      handleReviewSubmission s2 promptId reviewerId vote

/-- POST /api/v1/prompts: the handler spreads the request body and then
overrides authorId with the session user and status with 'pending_review',
so the client-supplied status (bodyStatus) is never read.  Guards model the
author foreign key and the primary key of the new row. -/
def promptsPost (s : State) (newId authorId bodyStatus : String) : State :=
  if (getUser s authorId).isNone then s
  else if s.prompts.any (fun p => p.id == newId) then s
  else { s with prompts := s.prompts ++
          [{ id := newId, authorId := authorId, status := "pending_review",
             parentPromptId := none }] }

/-- POST /api/v1/prompts/:id/fork: storage.forkPrompt copies the original
into a new draft prompt whose parentPromptId is the original's id; a missing
original is an error thrown before any insert. -/
def forkPost (s : State) (newId promptId authorId : String) : State :=
  if (getUser s authorId).isNone then s
  else
    match getPrompt s promptId with
    | none => s
    | some _ =>
      if s.prompts.any (fun p => p.id == newId) then s
      else { s with prompts := s.prompts ++
              [{ id := newId, authorId := authorId, status := "draft",
                 parentPromptId := some promptId }] }

/-! ### The operation machine -/

/-- One state-changing request of the modelled API surface. -/
inductive Op where
  | upsertUser (id : String)
  | promptsPost (newId authorId bodyStatus : String)
  | forkPost (newId promptId authorId : String)
  | votesPost (userId promptId : String) (voteType : VoteType)
  | votesDelete (userId promptId : String)
  | reviewsPost (promptId reviewerId : String) (vote : ReviewVote)
  | seedBadges
  | createTechnique (id : Nat) (name : String)
  | linkTechnique (promptId : String) (techniqueId : Nat)

/-- Apply one request to the database state. -/
def applyOp (s : State) : Op → State
  | Op.upsertUser id => upsertUser s id
  | Op.promptsPost newId authorId bodyStatus => promptsPost s newId authorId bodyStatus
  | Op.forkPost newId promptId authorId => forkPost s newId promptId authorId
  | Op.votesPost userId promptId voteType => votesPost s userId promptId voteType
  | Op.votesDelete userId promptId => votesDelete s userId promptId
  | Op.reviewsPost promptId reviewerId vote => reviewsPost s promptId reviewerId vote
  | Op.seedBadges => ensureDefaultBadges s
  | Op.createTechnique id name => createTechnique s id name
  | Op.linkTechnique promptId techniqueId => linkPromptToTechnique s promptId techniqueId

/-- Reachability of one database state from another by a sequence of requests. -/
inductive ReachableFrom : State → State → Prop where
  | refl (s : State) : ReachableFrom s s
  | step {s t : State} (op : Op) : ReachableFrom s t → ReachableFrom s (applyOp t op)

/-! ### Invariants -/

/-- Sum of the ledger deltas recorded for one user id. -/
def sumEventsFor (s : State) (id : String) : Int :=
  ((s.reputationEvents.filter (fun e => e.userId == id)).map
    (fun e => e.changeAmount)).sum

/-- The cached reputation of every user equals the sum of that user's ledger. -/
def repInvariant (s : State) : Prop :=
  ∀ u ∈ s.users, u.reputation = sumEventsFor s u.id

/-- Foreign-key integrity of prompts.author_id. -/
def promptsAuthorsExist (s : State) : Prop :=
  ∀ p ∈ s.prompts, ∃ u ∈ s.users, u.id = p.authorId

/-- Foreign-key integrity of reputation_events.user_id. -/
def eventsUsersExist (s : State) : Prop :=
  ∀ e ∈ s.reputationEvents, ∃ u ∈ s.users, u.id = e.userId

/-- Well-formed database state: the ledger invariant plus the two foreign
keys the engine relies on. -/
def wfState (s : State) : Prop :=
  repInvariant s ∧ promptsAuthorsExist s ∧ eventsUsersExist s

/-- At most one user_badges row per (userId, badgeId) key. -/
def badgesOnce (s : State) : Prop :=
  (s.userBadges.map (fun ub => (ub.userId, ub.badgeId))).Nodup

/-! ### Statement helpers for the vote delta -/

/-- Point value of a vote type in the engine's table. -/
def voteDelta : VoteType → Int
  | VoteType.upvote => PROMPT_UPVOTED
  | VoteType.downvote => PROMPT_DOWNVOTED

/-- Point value of an optional previous vote (0 when absent). -/
def prevDelta : Option VoteType → Int
  | none => 0
  | some v => voteDelta v


/-- Small concrete database: one author with one pending prompt. -/
def W1 : State :=
  { users := [{ id := "a", reputation := 0 }],
    prompts := [{ id := "p", authorId := "a", status := "pending_review", parentPromptId := none }],
    votes := [], reviews := [], reputationEvents := [], badges := [],
    userBadges := [], techniques := [], links := [] }

/-- Witness state for the no-op theorem: one user, no prompts. -/
def W9 : State :=
  { users := [{ id := "u", reputation := 0 }],
    prompts := [], votes := [], reviews := [], reputationEvents := [], badges := [],
    userBadges := [], techniques := [], links := [] }

/-- Database for the threshold check: a voter with 0 reputation and an
author with 20. -/
def SC6 : State :=
  { users := [{ id := "voter", reputation := 0 }, { id := "author", reputation := 20 }],
    prompts := [{ id := "p1", authorId := "author", status := "approved", parentPromptId := none }],
    votes := [], reviews := [], reputationEvents := [], badges := [],
    userBadges := [], techniques := [], links := [] }

/-- Database for the voter-cost rule: same shape as SC6. -/
def SC5 : State :=
  { users := [{ id := "voter", reputation := 50 }, { id := "author", reputation := 20 }],
    prompts := [{ id := "p1", authorId := "author", status := "approved", parentPromptId := none }],
    votes := [], reviews := [], reputationEvents := [], badges := [],
    userBadges := [], techniques := [], links := [] }

/-- Database for the fork bonus: prompt a by x, forked as prompt b by y
(parentPromptId = a), and a reviewer with 500 reputation. -/
def SC4 : State :=
  { users := [{ id := "x", reputation := 0 }, { id := "y", reputation := 0 },
              { id := "r", reputation := 500 }],
    prompts := [{ id := "a", authorId := "x", status := "approved", parentPromptId := none },
                { id := "b", authorId := "y", status := "pending_review", parentPromptId := some "a" }],
    votes := [], reviews := [], reputationEvents := [], badges := [],
    userBadges := [], techniques := [], links := [] }

/-- Database for badge evaluation after a vote: the author sits at 495
reputation, one upvote away from the Reviewer badge, which exists in the
catalog. -/
def SC7 : State :=
  { users := [{ id := "voter", reputation := 20 }, { id := "author", reputation := 495 }],
    prompts := [{ id := "p", authorId := "author", status := "approved", parentPromptId := none }],
    votes := [], reviews := [], reputationEvents := [],
    badges := [{ id := 1, name := "Reviewer" }],
    userBadges := [], techniques := [], links := [] }

/-- Status written by the review route for each review vote. -/
def reviewTransition : ReviewVote → String
  | ReviewVote.approve => "approved"
  | ReviewVote.reject => "rejected"

/-- Base point value of a review in the engine's table. -/
def reviewBase : ReviewVote → Int
  | ReviewVote.approve => REVIEW_APPROVED
  | ReviewVote.reject => REVIEW_REJECTED

/-- Witness state for the ledger invariant: a user with one ledger event. -/
def W2 : State :=
  { users := [{ id := "a", reputation := 7 }],
    prompts := [],
    votes := [], reviews := [],
    reputationEvents := [{ userId := "a", eventType := "x", changeAmount := 7, relatedPromptId := none }],
    badges := [], userBadges := [], techniques := [], links := [] }

/-- The held-badge set used by checkAndAwardBadges contains a badge id. -/
def heldContains (s : State) (uid : String) (i : Nat) : Prop :=
  (((getUserBadges s uid).map (fun ub => ub.badgeId)).contains i) = true

/-- Witness state for badge uniqueness: a user already past 500 reputation
and the Reviewer badge in the catalog, so the evaluation in the witness
actually awards a badge. -/
def W8 : State :=
  { users := [{ id := "u", reputation := 600 }],
    prompts := [], votes := [], reviews := [], reputationEvents := [],
    badges := [{ id := 1, name := "Reviewer" }],
    userBadges := [], techniques := [], links := [] }

/-- Witness state for the review-credit theorem: one author with one pending
prompt. -/
def W3 : State :=
  { users := [{ id := "w", reputation := 0 }],
    prompts := [{ id := "q", authorId := "w", status := "pending_review", parentPromptId := none }],
    votes := [], reviews := [], reputationEvents := [], badges := [],
    userBadges := [], techniques := [], links := [] }

/-! ### Generic helper lemmas -/

/-- Mapping a conditional pointwise update commutes with find?, when the
update preserves the searched predicate. -/
theorem find?_map_cond {α : Type} (pred : α → Bool) (f : α → α)
    (hf : ∀ x, pred (f x) = pred x) :
    ∀ l : List α,
      (l.map (fun x => if pred x then f x else x)).find? pred =
        (l.find? pred).map f := by
  intro l
  induction l with
  | nil => rfl
  | cons x xs ih =>
    by_cases hx : pred x
    · simp [hx, hf, List.find?_cons_of_pos]
    · simp only [List.map_cons]
      rw [if_neg hx, List.find?_cons_of_neg _ hx, List.find?_cons_of_neg _ hx]
      exact ih

/-- getUser after the author's reputation increment. -/
theorem getUser_updateUserReputation (s : State) (a : String) (c : Int) :
    getUser (updateUserReputation s a c) a =
      (getUser s a).map (fun u => { u with reputation := u.reputation + c }) := by
  unfold getUser updateUserReputation
  exact find?_map_cond (fun u => u.id == a)
    (fun u => { u with reputation := u.reputation + c }) (fun u => rfl) s.users

/-- getPrompt after a status update of the same prompt. -/
theorem getPrompt_updatePromptStatus (s : State) (pid st : String) :
    getPrompt (updatePromptStatus s pid st) pid =
      (getPrompt s pid).map (fun p => { p with status := st }) := by
  unfold getPrompt updatePromptStatus
  exact find?_map_cond (fun p => p.id == pid)
    (fun p => { p with status := st }) (fun p => rfl) s.prompts

/-! ### Witness state for the vote-delta theorem -/

/-- C1: for a vote on an existing prompt the engine changes the author's
reputation by delta(new) - delta(previous) and, exactly when that net amount
is nonzero, appends a single ledger event carrying it; upvote-to-downvote
nets -12, and repeating the same vote type is a no-op. -/
theorem handlePromptVote_net_delta (s : State) (pid : String) (v : VoteType)
    (prev : Option VoteType) (prompt : Prompt)
    (h : getPrompt s pid = some prompt) :
    (handlePromptVote s pid v prev =
      if voteDelta v - prevDelta prev ≠ 0 then
        createReputationEvent
          (updateUserReputation s prompt.authorId (voteDelta v - prevDelta prev))
          { userId := prompt.authorId,
            eventType := "prompt_" ++ voteTypeStr v ++ "d",
            changeAmount := voteDelta v - prevDelta prev,
            relatedPromptId := some pid }
      else s)
    ∧ voteDelta VoteType.downvote - prevDelta (some VoteType.upvote) = -12
    ∧ handlePromptVote s pid v (some v) = s := by
  refine ⟨?_, by norm_num [voteDelta, prevDelta, PROMPT_UPVOTED, PROMPT_DOWNVOTED], ?_⟩
  · cases prev with
    | none =>
      cases v <;>
        norm_num [handlePromptVote, h, voteDelta, prevDelta, PROMPT_UPVOTED,
          PROMPT_DOWNVOTED, voteTypeStr]
    | some pv =>
      cases pv <;> cases v <;>
        norm_num [handlePromptVote, h, voteDelta, prevDelta, PROMPT_UPVOTED,
          PROMPT_DOWNVOTED, voteTypeStr]
  · cases v <;>
      norm_num [handlePromptVote, h, voteDelta, prevDelta, PROMPT_UPVOTED,
        PROMPT_DOWNVOTED, voteTypeStr]

/-- Witness: the vote-delta theorem applied to the concrete database W1, for
an upvote changed to a downvote (net -12). -/
theorem handlePromptVote_net_delta_witness :
    getUser (handlePromptVote W1 "p" VoteType.downvote (some VoteType.upvote)) "a" =
      some { id := "a", reputation := -12 } := by
  have h := handlePromptVote_net_delta W1 "p" VoteType.downvote (some VoteType.upvote)
    { id := "p", authorId := "a", status := "pending_review", parentPromptId := none } rfl
  rw [h.1]
  decide

/-- C10: the create-prompt endpoint ignores the client-supplied status and
stores every new prompt as pending_review; every prompt of the resulting
state either predates the request or has status pending_review. -/
theorem promptsPost_forces_pending_review (s : State) (newId authorId st1 st2 : String) :
    promptsPost s newId authorId st1 = promptsPost s newId authorId st2
    ∧ ∀ p ∈ (promptsPost s newId authorId st1).prompts,
        p ∈ s.prompts ∨ p.status = "pending_review" := by
  refine ⟨rfl, ?_⟩
  intro p hp
  unfold promptsPost at hp
  by_cases h1 : (getUser s authorId).isNone
  · rw [if_pos h1] at hp
    exact Or.inl hp
  · rw [if_neg h1] at hp
    by_cases h2 : s.prompts.any (fun q => q.id == newId)
    · rw [if_pos h2] at hp
      exact Or.inl hp
    · rw [if_neg h2] at hp
      simp only [List.mem_append, List.mem_singleton] at hp
      cases hp with
      | inl hmem => exact Or.inl hmem
      | inr heq => exact Or.inr (by rw [heq])

/-- C9: on a well-formed database (prompt authors exist), a reputation-engine
call whose referenced prompt does not exist, or whose prompt's author user
does not exist, returns the state unchanged: no ledger event, no reputation
change, no error. -/
theorem engine_noop_on_missing (s : State) (pid rid : String) (v : VoteType)
    (prev : Option VoteType) (rv : ReviewVote)
    (hfk : promptsAuthorsExist s)
    (hmiss : getPrompt s pid = none ∨
      ∃ p, getPrompt s pid = some p ∧ getUser s p.authorId = none) :
    handlePromptVote s pid v prev = s ∧ handleReviewSubmission s pid rid rv = s := by
  cases hmiss with
  | inl h =>
    constructor
    · unfold handlePromptVote
      rw [h]
    · unfold handleReviewSubmission
      rw [h]
  | inr h =>
    exfalso
    obtain ⟨p, hp, hu⟩ := h
    have hmem : p ∈ s.prompts := List.mem_of_find?_eq_some hp
    obtain ⟨u, humem, hid⟩ := hfk p hmem
    have hsome : (s.users.find? (fun w => w.id == p.authorId)).isSome :=
      List.find?_isSome.mpr ⟨u, humem, by simp [hid]⟩
    rw [show s.users.find? (fun w => w.id == p.authorId) = getUser s p.authorId from rfl,
      hu] at hsome
    simp at hsome

/-- Witness: engine calls on a missing prompt leave the concrete database W9
unchanged. -/
theorem engine_noop_on_missing_witness :
    handlePromptVote W9 "nope" VoteType.upvote none = W9 ∧
      handleReviewSubmission W9 "nope" "u" ReviewVote.approve = W9 :=
  engine_noop_on_missing W9 "nope" "u" VoteType.upvote none ReviewVote.approve
    (by intro p hp; simp [W9] at hp) (Or.inl rfl)

/-! ### Concrete databases exhibiting the divergences -/

/-- C6 evidence: the vote endpoint accepts a downvote from a user with 0
reputation (below the documented 125 threshold): the vote row is stored and
the author's reputation drops by 2, so the request is not rejected. -/
theorem votesPost_no_threshold_check :
    getUser SC6 "voter" = some { id := "voter", reputation := 0 }
    ∧ getUser (votesPost SC6 "voter" "p1" VoteType.downvote) "author" =
        some { id := "author", reputation := 18 }
    ∧ getUserVoteForPrompt (votesPost SC6 "voter" "p1" VoteType.downvote) "voter" "p1" =
        some { userId := "voter", promptId := "p1", voteType := VoteType.downvote } := by
  decide

/-- C5 evidence: casting a downvote leaves the voter's reputation untouched
and writes no ledger event for the voter, and removing the vote changes no
user row and no ledger row at all. -/
theorem downvote_costs_voter_nothing :
    getUser (votesPost SC5 "voter" "p1" VoteType.downvote) "voter" =
        some { id := "voter", reputation := 50 }
    ∧ (votesPost SC5 "voter" "p1" VoteType.downvote).reputationEvents.filter
        (fun e => e.userId == "voter") = []
    ∧ (votesDelete (votesPost SC5 "voter" "p1" VoteType.downvote) "voter" "p1").users =
        (votesPost SC5 "voter" "p1" VoteType.downvote).users
    ∧ (votesDelete (votesPost SC5 "voter" "p1" VoteType.downvote) "voter" "p1").reputationEvents =
        (votesPost SC5 "voter" "p1" VoteType.downvote).reputationEvents := by
  decide

/-- C4 evidence: approving the forked prompt b credits its author y (+15 and
the +50 first-approval bonus) but gives the original author x no fork-bonus
event and no reputation change at all. -/
theorem fork_approval_gives_original_author_nothing :
    (getPrompt SC4 "b").map (fun p => p.parentPromptId) = some (some "a")
    ∧ getUser (reviewsPost SC4 "b" "r" ReviewVote.approve) "y" =
        some { id := "y", reputation := 65 }
    ∧ getUser (reviewsPost SC4 "b" "r" ReviewVote.approve) "x" =
        some { id := "x", reputation := 0 }
    ∧ (reviewsPost SC4 "b" "r" ReviewVote.approve).reputationEvents.filter
        (fun e => e.userId == "x") = [] := by
  decide

/-- C7 evidence: an upvote lifts the author to 505 reputation, the Reviewer
badge condition now holds and the badge evaluator would award it, yet the
vote handler never invokes the evaluator and the user_badges table stays
empty. -/
theorem vote_skips_badge_evaluation :
    getUser (votesPost SC7 "voter" "p" VoteType.upvote) "author" =
        some { id := "author", reputation := 505 }
    ∧ REPUTATION_500 (votesPost SC7 "voter" "p" VoteType.upvote) "author" = true
    ∧ (votesPost SC7 "voter" "p" VoteType.upvote).userBadges = []
    ∧ (checkAndAwardBadges (votesPost SC7 "voter" "p" VoteType.upvote) "author").userBadges =
        [{ userId := "author", badgeId := 1 }] := by
  decide

/-- getUser ignores a ledger append. -/
@[simp] theorem getUser_createReputationEvent (s : State) (e : ReputationEvent) (a : String) :
    getUser (createReputationEvent s e) a = getUser s a := rfl

/-- getUser ignores a prompt status update. -/
@[simp] theorem getUser_updatePromptStatus (s : State) (pid st a : String) :
    getUser (updatePromptStatus s pid st) a = getUser s a := rfl

/-- getPrompts ignores a ledger append. -/
@[simp] theorem getPrompts_createReputationEvent (s : State) (e : ReputationEvent)
    (a? st? : Option String) :
    getPrompts (createReputationEvent s e) a? st? = getPrompts s a? st? := rfl

/-- getPrompts ignores a reputation update. -/
@[simp] theorem getPrompts_updateUserReputation (s : State) (a : String) (c : Int)
    (a? st? : Option String) :
    getPrompts (updateUserReputation s a c) a? st? = getPrompts s a? st? := rfl

/-- Ledger contents of a status update. -/
@[simp] theorem events_updatePromptStatus (s : State) (pid st : String) :
    (updatePromptStatus s pid st).reputationEvents = s.reputationEvents := rfl

/-- Ledger contents of a reputation update. -/
@[simp] theorem events_updateUserReputation (s : State) (a : String) (c : Int) :
    (updateUserReputation s a c).reputationEvents = s.reputationEvents := rfl

/-- Ledger contents of a ledger append. -/
@[simp] theorem events_createReputationEvent (s : State) (e : ReputationEvent) :
    (createReputationEvent s e).reputationEvents = s.reputationEvents ++ [e] := rfl

/-- awardBadge only appends to the user_badges table. -/
theorem awardBadge_append (s : State) (uid : String) (i : Nat) :
    ∃ l, awardBadge s uid i = { s with userBadges := s.userBadges ++ l } := by
  unfold awardBadge
  by_cases h : s.userBadges.any (fun ub => ub.userId == uid && ub.badgeId == i)
  · exact ⟨[], by rw [if_pos h]; simp⟩
  · exact ⟨[{ userId := uid, badgeId := i }], by rw [if_neg h]⟩

/-- tryAwardBadge with no catalog badge is the identity. -/
theorem tryAwardBadge_none (s : State) (uid : String) (heldIds : List Nat)
    (cond : State → Bool) :
    tryAwardBadge s uid heldIds none cond = s := rfl

/-- tryAwardBadge on a badge already in the held set is the identity. -/
theorem tryAwardBadge_held (s : State) (uid : String) (heldIds : List Nat)
    (b : Badge) (cond : State → Bool) (h : heldIds.contains b.id = true) :
    tryAwardBadge s uid heldIds (some b) cond = s := by
  show (if (!heldIds.contains b.id) = true
    then (if cond s = true then awardBadge s uid b.id else s) else s) = s
  rw [h]
  rfl

/-- tryAwardBadge whose condition fails is the identity. -/
theorem tryAwardBadge_condFalse (s : State) (uid : String) (heldIds : List Nat)
    (b : Badge) (cond : State → Bool) (h : heldIds.contains b.id = false)
    (hc : cond s = false) :
    tryAwardBadge s uid heldIds (some b) cond = s := by
  show (if (!heldIds.contains b.id) = true
    then (if cond s = true then awardBadge s uid b.id else s) else s) = s
  rw [h, hc]
  rfl

/-- tryAwardBadge on a new badge whose condition holds awards it. -/
theorem tryAwardBadge_award (s : State) (uid : String) (heldIds : List Nat)
    (b : Badge) (cond : State → Bool) (h : heldIds.contains b.id = false)
    (hc : cond s = true) :
    tryAwardBadge s uid heldIds (some b) cond = awardBadge s uid b.id := by
  show (if (!heldIds.contains b.id) = true
    then (if cond s = true then awardBadge s uid b.id else s) else s) = awardBadge s uid b.id
  rw [h, hc]
  rfl

/-- tryAwardBadge only appends to the user_badges table. -/
theorem tryAwardBadge_append (s : State) (uid : String) (heldIds : List Nat)
    (badge? : Option Badge) (cond : State → Bool) :
    ∃ l, tryAwardBadge s uid heldIds badge? cond =
      { s with userBadges := s.userBadges ++ l } := by
  cases badge? with
  | none => exact ⟨[], by rw [tryAwardBadge_none]; simp⟩
  | some b =>
    cases h1 : heldIds.contains b.id with
    | true => exact ⟨[], by rw [tryAwardBadge_held s uid heldIds b cond h1]; simp⟩
    | false =>
      cases h2 : cond s with
      | false => exact ⟨[], by rw [tryAwardBadge_condFalse s uid heldIds b cond h1 h2]; simp⟩
      | true =>
        obtain ⟨l, hl⟩ := awardBadge_append s uid b.id
        exact ⟨l, by rw [tryAwardBadge_award s uid heldIds b cond h1 h2, hl]⟩

/-- checkAndAwardBadges only appends to the user_badges table. -/
theorem checkAndAwardBadges_append (s : State) (uid : String) :
    ∃ l, checkAndAwardBadges s uid = { s with userBadges := s.userBadges ++ l } := by
  simp only [checkAndAwardBadges]
  obtain ⟨l1, h1⟩ := tryAwardBadge_append s uid
    ((getUserBadges s uid).map (fun ub => ub.badgeId))
    (s.badges.find? (fun b => b.name == "First CoT Prompt"))
    (fun st => FIRST_COT st uid)
  rw [h1]
  obtain ⟨l2, h2⟩ := tryAwardBadge_append { s with userBadges := s.userBadges ++ l1 } uid
    ((getUserBadges s uid).map (fun ub => ub.badgeId))
    (s.badges.find? (fun b => b.name == "Reviewer"))
    (fun st => REPUTATION_500 st uid)
  rw [h2]
  obtain ⟨l3, h3⟩ := tryAwardBadge_append
    { s with userBadges := (s.userBadges ++ l1) ++ l2 } uid
    ((getUserBadges s uid).map (fun ub => ub.badgeId))
    (s.badges.find? (fun b => b.name == "Moderator"))
    (fun st => REPUTATION_2000 st uid)
  rw [h3]
  exact ⟨(l1 ++ l2) ++ l3, by simp⟩

/-- getUser ignores badge evaluation. -/
@[simp] theorem getUser_checkAndAwardBadges (s : State) (uid a : String) :
    getUser (checkAndAwardBadges s uid) a = getUser s a := by
  obtain ⟨l, hl⟩ := checkAndAwardBadges_append s uid
  rw [hl]
  rfl

/-- Ledger contents are unchanged by badge evaluation. -/
@[simp] theorem events_checkAndAwardBadges (s : State) (uid : String) :
    (checkAndAwardBadges s uid).reputationEvents = s.reputationEvents := by
  obtain ⟨l, hl⟩ := checkAndAwardBadges_append s uid
  rw [hl]

/-- C3: for a review of an existing prompt whose author exists, the engine
(run after the route's status transition, as routes.ts does) credits the
author exactly +15 on approve and -5 on reject with a matching ledger event,
and appends exactly one +50 first-approval event precisely when the vote is
approve and the author's approved-prompt count read after the transition
equals 1. -/
theorem handleReviewSubmission_credits (s : State) (pid rid : String) (v : ReviewVote)
    (prompt : Prompt) (u : User)
    (hp : getPrompt s pid = some prompt)
    (hu : getUser s prompt.authorId = some u) :
    getUser (handleReviewSubmission (updatePromptStatus s pid (reviewTransition v))
        pid rid v) prompt.authorId =
      some { u with reputation := u.reputation + reviewBase v +
        (if v = ReviewVote.approve ∧
            (getPrompts (updatePromptStatus s pid (reviewTransition v))
              (some prompt.authorId) (some "approved")).length = 1
         then FIRST_PROMPT_APPROVED else 0) }
    ∧ (handleReviewSubmission (updatePromptStatus s pid (reviewTransition v))
        pid rid v).reputationEvents =
      s.reputationEvents
      ++ [{ userId := prompt.authorId, eventType := "review_" ++ reviewVoteStr v ++ "d",
            changeAmount := reviewBase v, relatedPromptId := some pid }]
      ++ (if v = ReviewVote.approve ∧
            (getPrompts (updatePromptStatus s pid (reviewTransition v))
              (some prompt.authorId) (some "approved")).length = 1
          then [{ userId := prompt.authorId, eventType := "first_prompt_approved",
                  changeAmount := FIRST_PROMPT_APPROVED, relatedPromptId := some pid }]
          else []) := by
  have hp2 : getPrompt (updatePromptStatus s pid (reviewTransition v)) pid =
      some { prompt with status := reviewTransition v } := by
    rw [getPrompt_updatePromptStatus, hp]; rfl
  cases v with
  | reject =>
    constructor
    · simp [handleReviewSubmission, hp2, getUser_updateUserReputation, hu, reviewBase,
        reviewVoteStr]
    · simp [handleReviewSubmission, hp2, reviewBase, reviewVoteStr]
  | approve =>
    by_cases hc : (getPrompts (updatePromptStatus s pid (reviewTransition ReviewVote.approve))
        (some prompt.authorId) (some "approved")).length = 1
    · constructor
      · simp [handleReviewSubmission, hp2, getUser_updateUserReputation, hu, reviewBase,
          reviewVoteStr, hc, add_assoc]
      · simp [handleReviewSubmission, hp2, reviewBase, reviewVoteStr, hc]
    · constructor
      · simp [handleReviewSubmission, hp2, getUser_updateUserReputation, hu, reviewBase,
          reviewVoteStr, hc]
      · simp [handleReviewSubmission, hp2, reviewBase, reviewVoteStr, hc]

/-! ### Ledger-invariant machinery -/

/-- Appending one ledger event adds its amount to the sum of exactly the
matching user id. -/
theorem sumEventsFor_append (s : State) (e : ReputationEvent) (x : String) :
    sumEventsFor (createReputationEvent s e) x =
      sumEventsFor s x + (if e.userId == x then e.changeAmount else 0) := by
  unfold sumEventsFor createReputationEvent
  by_cases h : e.userId == x
  · simp [List.filter_append, h]
  · simp [List.filter_append, h]

/-- The conditional reputation update preserves the user id. -/
theorem update_id_preserved (a : String) (c : Int) (u : User) :
    (if u.id == a then { u with reputation := u.reputation + c } else u).id = u.id := by
  by_cases h : u.id == a <;> simp [h]

/-- An atomic reputation increment paired with a ledger event of the same
amount for the same user preserves well-formedness. -/
theorem wf_paired (s : State) (a : String) (c : Int) (et : String) (rp : Option String)
    (hex : ∃ u ∈ s.users, u.id = a) (hwf : wfState s) :
    wfState (createReputationEvent (updateUserReputation s a c)
      { userId := a, eventType := et, changeAmount := c, relatedPromptId := rp }) := by
  obtain ⟨hrep, hpfk, hefk⟩ := hwf
  refine ⟨?_, ?_, ?_⟩
  · intro w hw
    have hw' : w ∈ s.users.map
        (fun u => if u.id == a then { u with reputation := u.reputation + c } else u) := hw
    rw [List.mem_map] at hw'
    obtain ⟨u, hu, hfu⟩ := hw'
    have hsum : sumEventsFor (createReputationEvent (updateUserReputation s a c)
        { userId := a, eventType := et, changeAmount := c, relatedPromptId := rp }) w.id =
        sumEventsFor s w.id + (if a == w.id then c else 0) := by
      rw [sumEventsFor_append]
      rfl
    rw [hsum]
    by_cases hid : u.id = a
    · have hb : (u.id == a) = true := beq_iff_eq.mpr hid
      have hw2 : w = { u with reputation := u.reputation + c } := by rw [← hfu, if_pos hb]
      have hba : (a == u.id) = true := beq_iff_eq.mpr hid.symm
      rw [hw2]
      show u.reputation + c = sumEventsFor s u.id + (if (a == u.id) = true then c else 0)
      rw [if_pos hba, hrep u hu]
    · have hnb : ¬((u.id == a) = true) := fun hcon => hid (eq_of_beq hcon)
      have hw2 : w = u := by rw [← hfu, if_neg hnb]
      have hba : ¬((a == u.id) = true) := fun hcon => hid (eq_of_beq hcon).symm
      rw [hw2]
      show u.reputation = sumEventsFor s u.id + (if (a == u.id) = true then c else 0)
      rw [if_neg hba, add_zero]
      exact hrep u hu
  · intro p hp
    obtain ⟨u, hu, hid⟩ := hpfk p hp
    exact ⟨_, List.mem_map_of_mem _ hu, by rw [update_id_preserved]; exact hid⟩
  · intro e he
    have he' : e ∈ s.reputationEvents ++
        [{ userId := a, eventType := et, changeAmount := c, relatedPromptId := rp }] := he
    rw [List.mem_append] at he'
    cases he' with
    | inl hold =>
      obtain ⟨u, hu, hid⟩ := hefk e hold
      exact ⟨_, List.mem_map_of_mem _ hu, by rw [update_id_preserved]; exact hid⟩
    | inr hnew =>
      have he2 : e = { userId := a, eventType := et, changeAmount := c, relatedPromptId := rp } := by
        simpa using hnew
      obtain ⟨u, hu, hid⟩ := hex
      exact ⟨_, List.mem_map_of_mem _ hu, by rw [update_id_preserved, he2]; exact hid⟩

/-- Existence of a user id survives the paired update. -/
theorem exists_user_paired (s : State) (a b : String) (c : Int) (e : ReputationEvent)
    (hex : ∃ u ∈ s.users, u.id = a) :
    ∃ u ∈ (createReputationEvent (updateUserReputation s b c) e).users, u.id = a := by
  obtain ⟨u, hu, hid⟩ := hex
  exact ⟨_, List.mem_map_of_mem _ hu, by rw [update_id_preserved]; exact hid⟩

/-- Badge evaluation preserves well-formedness (it only writes user_badges). -/
theorem wf_checkAndAwardBadges (s : State) (uid : String) (h : wfState s) :
    wfState (checkAndAwardBadges s uid) := by
  obtain ⟨l, hl⟩ := checkAndAwardBadges_append s uid
  rw [hl]
  exact h

/-- handlePromptVote preserves well-formedness. -/
theorem wf_handlePromptVote (s : State) (pid : String) (v : VoteType)
    (prev : Option VoteType) (h : wfState s) :
    wfState (handlePromptVote s pid v prev) := by
  cases hp : getPrompt s pid with
  | none => simp only [handlePromptVote, hp]; exact h
  | some prompt =>
    have hex : ∃ u ∈ s.users, u.id = prompt.authorId :=
      h.2.1 prompt (List.mem_of_find?_eq_some hp)
    simp only [handlePromptVote, hp]
    split
    · exact wf_paired s prompt.authorId _ _ _ hex h
    · exact h

/-- handleReviewSubmission preserves well-formedness. -/
theorem wf_handleReviewSubmission (s : State) (pid rid : String) (v : ReviewVote)
    (h : wfState s) :
    wfState (handleReviewSubmission s pid rid v) := by
  cases hp : getPrompt s pid with
  | none => simp only [handleReviewSubmission, hp]; exact h
  | some prompt =>
    have hex : ∃ u ∈ s.users, u.id = prompt.authorId :=
      h.2.1 prompt (List.mem_of_find?_eq_some hp)
    cases v with
    | reject =>
      simp only [handleReviewSubmission, hp]
      exact wf_checkAndAwardBadges _ _ (wf_paired s prompt.authorId _ _ _ hex h)
    | approve =>
      simp only [handleReviewSubmission, hp]
      apply wf_checkAndAwardBadges
      have h2 : wfState (createReputationEvent
          (updateUserReputation s prompt.authorId REVIEW_APPROVED)
          { userId := prompt.authorId,
            eventType := "review_" ++ reviewVoteStr ReviewVote.approve ++ "d",
            changeAmount := REVIEW_APPROVED,
            relatedPromptId := some pid }) :=
        wf_paired s prompt.authorId _ _ _ hex h
      split
      · exact wf_paired _ prompt.authorId _ _ _ (exists_user_paired s _ _ _ _ hex) h2
      · exact h2

/-- upsertUser preserves well-formedness. -/
theorem wf_upsertUser (s : State) (id : String) (h : wfState s) :
    wfState (upsertUser s id) := by
  unfold upsertUser
  by_cases hany : s.users.any (fun u => u.id == id)
  · rw [if_pos hany]; exact h
  · rw [if_neg hany]
    obtain ⟨hrep, hpfk, hefk⟩ := h
    refine ⟨?_, ?_, ?_⟩
    · intro w hw
      have hw' : w ∈ s.users ++ [{ id := id, reputation := 0 }] := hw
      rw [List.mem_append] at hw'
      cases hw' with
      | inl hold => exact hrep w hold
      | inr hnew =>
        have hw2 : w = { id := id, reputation := 0 } := by simpa using hnew
        rw [hw2]
        have hzero : sumEventsFor s id = 0 := by
          unfold sumEventsFor
          have hnil : s.reputationEvents.filter (fun e => e.userId == id) = [] := by
            rw [List.filter_eq_nil_iff]
            intro e he hbeq
            obtain ⟨u, hu, hid⟩ := hefk e he
            exact hany (List.any_eq_true.mpr ⟨u, hu, by rw [hid]; exact hbeq⟩)
          rw [hnil]
          rfl
        exact hzero.symm
    · intro p hp
      obtain ⟨u, hu, hid⟩ := hpfk p hp
      exact ⟨u, List.mem_append_left _ hu, hid⟩
    · intro e he
      obtain ⟨u, hu, hid⟩ := hefk e he
      exact ⟨u, List.mem_append_left _ hu, hid⟩

/-- Appending a prompt whose author exists preserves well-formedness. -/
theorem wf_appendPrompt (s : State) (p : Prompt)
    (hex : ∃ u ∈ s.users, u.id = p.authorId) (h : wfState s) :
    wfState { s with prompts := s.prompts ++ [p] } := by
  obtain ⟨hrep, hpfk, hefk⟩ := h
  refine ⟨hrep, ?_, hefk⟩
  intro q hq
  have hq' : q ∈ s.prompts ++ [p] := hq
  rw [List.mem_append] at hq'
  cases hq' with
  | inl hold => exact hpfk q hold
  | inr hnew =>
    have : q = p := by simpa using hnew
    rw [this]
    exact hex

/-- The prompt-creation route preserves well-formedness. -/
theorem wf_promptsPost (s : State) (newId authorId bodyStatus : String) (h : wfState s) :
    wfState (promptsPost s newId authorId bodyStatus) := by
  unfold promptsPost
  cases hu : getUser s authorId with
  | none => simp [hu]; exact h
  | some u =>
    simp only [hu, Option.isNone_some, Bool.false_eq_true, if_false]
    have hu' : s.users.find? (fun w => w.id == authorId) = some u := hu
    have hbeq0 := List.find?_some hu'
    have hbeq : (u.id == authorId) = true := hbeq0
    by_cases hid : s.prompts.any (fun p => p.id == newId)
    · rw [if_pos hid]; exact h
    · rw [if_neg hid]
      exact wf_appendPrompt s _
        ⟨u, List.mem_of_find?_eq_some hu', eq_of_beq hbeq⟩ h

/-- The fork route preserves well-formedness. -/
theorem wf_forkPost (s : State) (newId promptId authorId : String) (h : wfState s) :
    wfState (forkPost s newId promptId authorId) := by
  cases hu : getUser s authorId with
  | none => simp only [forkPost, hu]; exact h
  | some u =>
    cases hp : getPrompt s promptId with
    | none => simp only [forkPost, hu, hp]; exact h
    | some orig =>
      simp only [forkPost, hu, hp, Option.isNone_some, Bool.false_eq_true, if_false]
      have hu' : s.users.find? (fun w => w.id == authorId) = some u := hu
      have hbeq0 := List.find?_some hu'
      have hbeq : (u.id == authorId) = true := hbeq0
      by_cases hid : s.prompts.any (fun p => p.id == newId)
      · rw [if_pos hid]; exact h
      · rw [if_neg hid]
        exact wf_appendPrompt s _
          ⟨u, List.mem_of_find?_eq_some hu', eq_of_beq hbeq⟩ h

/-- createVote preserves well-formedness (it only writes the votes table). -/
theorem wf_createVote (s : State) (v : Vote) (h : wfState s) :
    wfState (createVote s v) := by
  unfold createVote
  split
  · exact h
  · exact h

/-- The vote route preserves well-formedness. -/
theorem wf_votesPost (s : State) (userId promptId : String) (t : VoteType) (h : wfState s) :
    wfState (votesPost s userId promptId t) := by
  unfold votesPost
  split
  · exact h
  · exact wf_handlePromptVote _ _ _ _ (wf_createVote s _ h)

/-- The vote-deletion route preserves well-formedness. -/
theorem wf_votesDelete (s : State) (userId promptId : String) (h : wfState s) :
    wfState (votesDelete s userId promptId) := h

/-- updatePromptStatus preserves well-formedness. -/
theorem wf_updatePromptStatus (s : State) (pid st : String) (h : wfState s) :
    wfState (updatePromptStatus s pid st) := by
  obtain ⟨hrep, hpfk, hefk⟩ := h
  refine ⟨hrep, ?_, hefk⟩
  intro q hq
  have hq' : q ∈ s.prompts.map (fun p => if p.id == pid then { p with status := st } else p) := hq
  rw [List.mem_map] at hq'
  obtain ⟨p, hp, hfp⟩ := hq'
  obtain ⟨u, hu, hid⟩ := hpfk p hp
  refine ⟨u, hu, ?_⟩
  rw [← hfp]
  by_cases hcond : p.id == pid
  · simp only [hcond, if_pos]
    exact hid
  · simp only [hcond, if_neg, if_false]
    exact hid

/-- The review route preserves well-formedness. -/
theorem wf_reviewsPost (s : State) (promptId reviewerId : String) (v : ReviewVote)
    (h : wfState s) :
    wfState (reviewsPost s promptId reviewerId v) := by
  cases hu : getUser s reviewerId with
  | none => simp only [reviewsPost, hu]; exact h
  | some u =>
    simp only [reviewsPost, hu]
    by_cases hrep : u.reputation < 500
    · rw [if_pos hrep]; exact h
    · rw [if_neg hrep]
      by_cases hnone : (getPrompt s promptId).isNone = true
      · rw [if_pos hnone]; exact h
      · rw [if_neg hnone]
        exact wf_handleReviewSubmission _ _ _ _
          (wf_updatePromptStatus _ _ _ (show wfState (createReview s _) from h))

/-- A fold of badge-table-only steps only writes the badges table. -/
theorem foldl_badges_only (f : State → String → State)
    (hf : ∀ st n, ∃ l, f st n = { st with badges := l }) :
    ∀ (names : List String) (s : State), ∃ l, names.foldl f s = { s with badges := l } := by
  intro names
  induction names with
  | nil => intro s; exact ⟨s.badges, rfl⟩
  | cons n ns ih =>
    intro s
    obtain ⟨l1, h1⟩ := hf s n
    obtain ⟨l2, h2⟩ := ih (f s n)
    exact ⟨l2, by rw [List.foldl_cons, h2, h1]⟩

/-- Badge seeding only writes the badges table. -/
theorem ensureDefaultBadges_badges_only (s : State) :
    ∃ l, ensureDefaultBadges s = { s with badges := l } := by
  unfold ensureDefaultBadges
  apply foldl_badges_only
  intro st n
  by_cases hb : st.badges.any (fun b => b.name == n)
  · exact ⟨st.badges, by rw [if_pos hb]⟩
  · exact ⟨st.badges ++ [{ id := nextBadgeId st, name := n }], by rw [if_neg hb]; rfl⟩

/-- Badge seeding preserves well-formedness. -/
theorem wf_ensureDefaultBadges (s : State) (h : wfState s) :
    wfState (ensureDefaultBadges s) := by
  obtain ⟨l, hl⟩ := ensureDefaultBadges_badges_only s
  rw [hl]
  exact h

/-- createTechnique preserves well-formedness. -/
theorem wf_createTechnique (s : State) (id : Nat) (name : String) (h : wfState s) :
    wfState (createTechnique s id name) := by
  unfold createTechnique
  split
  · exact h
  · exact h

/-- linkPromptToTechnique preserves well-formedness. -/
theorem wf_linkTechnique (s : State) (pid : String) (tid : Nat) (h : wfState s) :
    wfState (linkPromptToTechnique s pid tid) := by
  unfold linkPromptToTechnique
  split
  · exact h
  · exact h

/-- Every request of the modelled API preserves well-formedness. -/
theorem wf_applyOp (s : State) (op : Op) (h : wfState s) : wfState (applyOp s op) := by
  cases op with
  | upsertUser id => exact wf_upsertUser s id h
  | promptsPost newId authorId bodyStatus => exact wf_promptsPost s newId authorId bodyStatus h
  | forkPost newId promptId authorId => exact wf_forkPost s newId promptId authorId h
  | votesPost userId promptId voteType => exact wf_votesPost s userId promptId voteType h
  | votesDelete userId promptId => exact wf_votesDelete s userId promptId h
  | reviewsPost promptId reviewerId vote => exact wf_reviewsPost s promptId reviewerId vote h
  | seedBadges => exact wf_ensureDefaultBadges s h
  | createTechnique id name => exact wf_createTechnique s id name h
  | linkTechnique promptId techniqueId => exact wf_linkTechnique s promptId techniqueId h

/-- C2: from any well-formed state (cached totals match the ledger and the
foreign keys hold), every reachable state still has every user's cached
reputation equal to the sum of that user's ledger deltas. -/
theorem reputation_matches_ledger (s0 s : State) (h0 : wfState s0)
    (hr : ReachableFrom s0 s) : repInvariant s := by
  have hwf : wfState s := by
    induction hr with
    | refl => exact h0
    | step op hr ih => exact wf_applyOp _ op ih
  exact hwf.1

/-- Witness: the ledger invariant theorem applied to the concrete state W2. -/
theorem reputation_matches_ledger_witness : repInvariant W2 :=
  reputation_matches_ledger W2 W2
    (by unfold wfState repInvariant promptsAuthorsExist eventsUsersExist; decide)
    (ReachableFrom.refl W2)

/-! ### Badge-uniqueness and idempotency machinery -/

/-- Characterisation of the held set by a user_badges row. -/
theorem heldContains_iff (s : State) (uid : String) (i : Nat) :
    heldContains s uid i ↔ ∃ ub ∈ s.userBadges, ub.userId = uid ∧ ub.badgeId = i := by
  unfold heldContains getUserBadges
  constructor
  · intro h
    have hmem : i ∈ (s.userBadges.filter (fun ub => ub.userId == uid)).map
        (fun ub => ub.badgeId) := List.elem_iff.mp h
    rw [List.mem_map] at hmem
    obtain ⟨ub, hub, hid⟩ := hmem
    rw [List.mem_filter] at hub
    exact ⟨ub, hub.1, eq_of_beq hub.2, hid⟩
  · intro h
    obtain ⟨ub, hub, huid, hbid⟩ := h
    apply List.elem_iff.mpr
    rw [List.mem_map]
    exact ⟨ub, List.mem_filter.mpr ⟨hub, beq_iff_eq.mpr huid⟩, hbid⟩

/-- awardBadge leaves its own key row present. -/
theorem awardBadge_key_mem (s : State) (uid : String) (i : Nat) :
    ({ userId := uid, badgeId := i } : UserBadge) ∈ (awardBadge s uid i).userBadges := by
  unfold awardBadge
  by_cases h : s.userBadges.any (fun ub => ub.userId == uid && ub.badgeId == i)
  · rw [if_pos h]
    rw [List.any_eq_true] at h
    obtain ⟨ub, hub, hb⟩ := h
    rw [Bool.and_eq_true] at hb
    have h1 : ub.userId = uid := eq_of_beq hb.1
    have h2 : ub.badgeId = i := eq_of_beq hb.2
    have hkey : ub = { userId := uid, badgeId := i } := by
      cases ub
      rw [UserBadge.mk.injEq]
      exact ⟨h1, h2⟩
    rw [← hkey]
    exact hub
  · rw [if_neg h]
    exact List.mem_append_right _ (List.mem_singleton.mpr rfl)

/-- awardBadge keeps the user_badges key unique. -/
theorem awardBadge_badgesOnce (s : State) (uid : String) (i : Nat) (h : badgesOnce s) :
    badgesOnce (awardBadge s uid i) := by
  unfold awardBadge
  by_cases hany : s.userBadges.any (fun ub => ub.userId == uid && ub.badgeId == i)
  · rw [if_pos hany]; exact h
  · rw [if_neg hany]
    unfold badgesOnce at h ⊢
    show ((s.userBadges ++ [({ userId := uid, badgeId := i } : UserBadge)]).map
      (fun ub => (ub.userId, ub.badgeId))).Nodup
    rw [List.map_append, List.nodup_append]
    refine ⟨h, List.nodup_singleton _, ?_⟩
    intro x hx hx2
    rw [List.map_singleton, List.mem_singleton] at hx2
    rw [List.mem_map] at hx
    obtain ⟨ub, hub, hkey⟩ := hx
    apply hany
    rw [List.any_eq_true]
    refine ⟨ub, hub, ?_⟩
    rw [hx2] at hkey
    have h1 : ub.userId = uid := congrArg Prod.fst hkey
    have h2 : ub.badgeId = i := congrArg Prod.snd hkey
    rw [Bool.and_eq_true]
    exact ⟨beq_iff_eq.mpr h1, beq_iff_eq.mpr h2⟩

/-- tryAwardBadge keeps the user_badges key unique. -/
theorem tryAwardBadge_badgesOnce (s : State) (uid : String) (heldIds : List Nat)
    (badge? : Option Badge) (cond : State → Bool) (h : badgesOnce s) :
    badgesOnce (tryAwardBadge s uid heldIds badge? cond) := by
  cases badge? with
  | none => rw [tryAwardBadge_none]; exact h
  | some b =>
    cases h1 : heldIds.contains b.id with
    | true => rw [tryAwardBadge_held _ _ _ _ _ h1]; exact h
    | false =>
      cases h2 : cond s with
      | false => rw [tryAwardBadge_condFalse _ _ _ _ _ h1 h2]; exact h
      | true =>
        rw [tryAwardBadge_award _ _ _ _ _ h1 h2]
        exact awardBadge_badgesOnce _ _ _ h

/-- checkAndAwardBadges keeps the user_badges key unique. -/
theorem checkAndAwardBadges_badgesOnce (s : State) (uid : String) (h : badgesOnce s) :
    badgesOnce (checkAndAwardBadges s uid) := by
  simp only [checkAndAwardBadges]
  exact tryAwardBadge_badgesOnce _ _ _ _ _
    (tryAwardBadge_badgesOnce _ _ _ _ _ (tryAwardBadge_badgesOnce _ _ _ _ _ h))

/-- badgesOnce only depends on the user_badges table. -/
theorem badgesOnce_of_ub_eq {s t : State} (h : t.userBadges = s.userBadges)
    (hs : badgesOnce s) : badgesOnce t := by
  unfold badgesOnce at hs ⊢
  rw [h]
  exact hs

/-- handlePromptVote never writes the user_badges table. -/
theorem userBadges_handlePromptVote (s : State) (pid : String) (v : VoteType)
    (prev : Option VoteType) :
    (handlePromptVote s pid v prev).userBadges = s.userBadges := by
  cases hp : getPrompt s pid with
  | none => simp only [handlePromptVote, hp]
  | some prompt =>
    simp only [handlePromptVote, hp]
    split <;> rfl

/-- createVote never writes the user_badges table. -/
theorem userBadges_createVote (s : State) (v : Vote) :
    (createVote s v).userBadges = s.userBadges := by
  unfold createVote
  split <;> rfl

/-- handleReviewSubmission keeps the user_badges key unique. -/
theorem badgesOnce_handleReviewSubmission (s : State) (pid rid : String) (v : ReviewVote)
    (h : badgesOnce s) :
    badgesOnce (handleReviewSubmission s pid rid v) := by
  cases hp : getPrompt s pid with
  | none => simp only [handleReviewSubmission, hp]; exact h
  | some prompt =>
    cases v with
    | reject =>
      simp only [handleReviewSubmission, hp]
      exact checkAndAwardBadges_badgesOnce _ _ h
    | approve =>
      simp only [handleReviewSubmission, hp]
      apply checkAndAwardBadges_badgesOnce
      split <;> exact h

/-- Every request of the modelled API keeps the user_badges key unique. -/
theorem badgesOnce_applyOp (s : State) (op : Op) (h : badgesOnce s) :
    badgesOnce (applyOp s op) := by
  cases op with
  | upsertUser id =>
    show badgesOnce (upsertUser s id)
    unfold upsertUser
    split <;> exact h
  | promptsPost newId authorId bodyStatus =>
    show badgesOnce (promptsPost s newId authorId bodyStatus)
    unfold promptsPost
    split
    · exact h
    · split <;> exact h
  | forkPost newId promptId authorId =>
    show badgesOnce (forkPost s newId promptId authorId)
    unfold forkPost
    split
    · exact h
    · split
      · exact h
      · split <;> exact h
  | votesPost userId promptId voteType =>
    show badgesOnce (votesPost s userId promptId voteType)
    unfold votesPost
    split
    · exact h
    · exact badgesOnce_of_ub_eq (userBadges_handlePromptVote _ _ _ _)
        (badgesOnce_of_ub_eq (userBadges_createVote s _) h)
  | votesDelete userId promptId => exact h
  | reviewsPost promptId reviewerId vote =>
    show badgesOnce (reviewsPost s promptId reviewerId vote)
    cases hu : getUser s reviewerId with
    | none => simp only [reviewsPost, hu]; exact h
    | some u =>
      simp only [reviewsPost, hu]
      by_cases h1 : u.reputation < 500
      · rw [if_pos h1]; exact h
      · rw [if_neg h1]
        by_cases h2 : (getPrompt s promptId).isNone = true
        · rw [if_pos h2]; exact h
        · rw [if_neg h2]
          exact badgesOnce_handleReviewSubmission _ _ _ _ h
  | seedBadges =>
    obtain ⟨l, hl⟩ := ensureDefaultBadges_badges_only s
    show badgesOnce (ensureDefaultBadges s)
    rw [hl]
    exact h
  | createTechnique id name =>
    show badgesOnce (createTechnique s id name)
    unfold createTechnique
    split <;> exact h
  | linkTechnique promptId techniqueId =>
    show badgesOnce (linkPromptToTechnique s promptId techniqueId)
    unfold linkPromptToTechnique
    split <;> exact h

/-- A badge evaluation pass whose three blocks are all inert is the identity. -/
theorem tryAwardBadge_noop (t : State) (uid : String) (b? : Option Badge)
    (cond : State → Bool)
    (hno : ∀ b, b? = some b → heldContains t uid b.id ∨ cond t = false) :
    tryAwardBadge t uid ((getUserBadges t uid).map (fun ub => ub.badgeId)) b? cond = t := by
  cases b? with
  | none => exact tryAwardBadge_none _ _ _ _
  | some b =>
    cases hcb : ((getUserBadges t uid).map (fun ub => ub.badgeId)).contains b.id with
    | true => exact tryAwardBadge_held _ _ _ _ _ hcb
    | false =>
      rcases hno b rfl with hc | hc
      · have hc2 : (((getUserBadges t uid).map (fun ub => ub.badgeId)).contains b.id) = true := hc
        rw [hcb] at hc2
        exact Bool.noConfusion hc2
      · exact tryAwardBadge_condFalse _ _ _ _ _ hcb hc

/-- checkAndAwardBadges is the identity when each block is held or failing. -/
theorem checkAndAwardBadges_noop (t : State) (uid : String)
    (h1 : ∀ b, t.badges.find? (fun b => b.name == "First CoT Prompt") = some b →
      heldContains t uid b.id ∨ FIRST_COT t uid = false)
    (h2 : ∀ b, t.badges.find? (fun b => b.name == "Reviewer") = some b →
      heldContains t uid b.id ∨ REPUTATION_500 t uid = false)
    (h3 : ∀ b, t.badges.find? (fun b => b.name == "Moderator") = some b →
      heldContains t uid b.id ∨ REPUTATION_2000 t uid = false) :
    checkAndAwardBadges t uid = t := by
  simp only [checkAndAwardBadges]
  rw [tryAwardBadge_noop t uid _ _ h1, tryAwardBadge_noop t uid _ _ h2,
    tryAwardBadge_noop t uid _ _ h3]

/-- Two badge-award blocks in sequence only append to user_badges. -/
theorem tryAward2_append (s0 : State) (uid : String) (held : List Nat)
    (b2 b3 : Option Badge) (c2 c3 : State → Bool) :
    ∃ l, tryAwardBadge (tryAwardBadge s0 uid held b2 c2) uid held b3 c3 =
      { s0 with userBadges := s0.userBadges ++ l } := by
  obtain ⟨l2, e2⟩ := tryAwardBadge_append s0 uid held b2 c2
  rw [e2]
  obtain ⟨l3, e3⟩ := tryAwardBadge_append { s0 with userBadges := s0.userBadges ++ l2 }
    uid held b3 c3
  rw [e3]
  exact ⟨l2 ++ l3, by simp⟩

/-- After one badge evaluation, the First CoT block can never fire again:
its badge is either now held or its condition is false. -/
theorem run1_first_cot (s : State) (uid : String) (b : Badge)
    (hfind : s.badges.find? (fun x => x.name == "First CoT Prompt") = some b) :
    heldContains (checkAndAwardBadges s uid) uid b.id ∨
      FIRST_COT (checkAndAwardBadges s uid) uid = false := by
  simp only [checkAndAwardBadges, hfind]
  cases hcb : ((getUserBadges s uid).map (fun ub => ub.badgeId)).contains b.id with
  | true =>
    left
    rw [tryAwardBadge_held _ _ _ _ _ hcb]
    obtain ⟨l23, e23⟩ := tryAward2_append s uid
      ((getUserBadges s uid).map (fun ub => ub.badgeId))
      (s.badges.find? (fun x => x.name == "Reviewer"))
      (s.badges.find? (fun x => x.name == "Moderator"))
      (fun st => REPUTATION_500 st uid) (fun st => REPUTATION_2000 st uid)
    rw [e23]
    apply (heldContains_iff _ uid b.id).mpr
    obtain ⟨ub, hub, hu1, hu2⟩ := (heldContains_iff s uid b.id).mp hcb
    exact ⟨ub, List.mem_append_left _ hub, hu1, hu2⟩
  | false =>
    cases hcot : FIRST_COT s uid with
    | false =>
      right
      have hcf : (fun st => FIRST_COT st uid) s = false := hcot
      rw [tryAwardBadge_condFalse _ _ _ _ _ hcb hcf]
      obtain ⟨l23, e23⟩ := tryAward2_append s uid
        ((getUserBadges s uid).map (fun ub => ub.badgeId))
        (s.badges.find? (fun x => x.name == "Reviewer"))
        (s.badges.find? (fun x => x.name == "Moderator"))
        (fun st => REPUTATION_500 st uid) (fun st => REPUTATION_2000 st uid)
      rw [e23]
      exact hcot
    | true =>
      left
      have hct : (fun st => FIRST_COT st uid) s = true := hcot
      rw [tryAwardBadge_award _ _ _ _ _ hcb hct]
      obtain ⟨l23, e23⟩ := tryAward2_append (awardBadge s uid b.id) uid
        ((getUserBadges s uid).map (fun ub => ub.badgeId))
        (s.badges.find? (fun x => x.name == "Reviewer"))
        (s.badges.find? (fun x => x.name == "Moderator"))
        (fun st => REPUTATION_500 st uid) (fun st => REPUTATION_2000 st uid)
      rw [e23]
      apply (heldContains_iff _ uid b.id).mpr
      exact ⟨_, List.mem_append_left _ (awardBadge_key_mem s uid b.id), rfl, rfl⟩

/-- After one badge evaluation, the Reviewer block can never fire again. -/
theorem run1_reviewer (s : State) (uid : String) (b : Badge)
    (hfind : s.badges.find? (fun x => x.name == "Reviewer") = some b) :
    heldContains (checkAndAwardBadges s uid) uid b.id ∨
      REPUTATION_500 (checkAndAwardBadges s uid) uid = false := by
  simp only [checkAndAwardBadges, hfind]
  obtain ⟨l1, e1⟩ := tryAwardBadge_append s uid
    ((getUserBadges s uid).map (fun ub => ub.badgeId))
    (s.badges.find? (fun x => x.name == "First CoT Prompt"))
    (fun st => FIRST_COT st uid)
  rw [e1]
  cases hcb : ((getUserBadges s uid).map (fun ub => ub.badgeId)).contains b.id with
  | true =>
    left
    rw [tryAwardBadge_held _ _ _ _ _ hcb]
    obtain ⟨l3, e3⟩ := tryAwardBadge_append { s with userBadges := s.userBadges ++ l1 } uid
      ((getUserBadges s uid).map (fun ub => ub.badgeId))
      (s.badges.find? (fun x => x.name == "Moderator"))
      (fun st => REPUTATION_2000 st uid)
    rw [e3]
    apply (heldContains_iff _ uid b.id).mpr
    obtain ⟨ub, hub, hu1, hu2⟩ := (heldContains_iff s uid b.id).mp hcb
    exact ⟨ub, List.mem_append_left _ (List.mem_append_left _ hub), hu1, hu2⟩
  | false =>
    cases h5 : REPUTATION_500 s uid with
    | false =>
      right
      have h5f : (fun st => REPUTATION_500 st uid)
        { s with userBadges := s.userBadges ++ l1 } = false := h5
      rw [tryAwardBadge_condFalse _ _ _ _ _ hcb h5f]
      obtain ⟨l3, e3⟩ := tryAwardBadge_append { s with userBadges := s.userBadges ++ l1 } uid
        ((getUserBadges s uid).map (fun ub => ub.badgeId))
        (s.badges.find? (fun x => x.name == "Moderator"))
        (fun st => REPUTATION_2000 st uid)
      rw [e3]
      exact h5
    | true =>
      left
      have h5t : (fun st => REPUTATION_500 st uid)
        { s with userBadges := s.userBadges ++ l1 } = true := h5
      rw [tryAwardBadge_award _ _ _ _ _ hcb h5t]
      obtain ⟨l3, e3⟩ := tryAwardBadge_append
        (awardBadge { s with userBadges := s.userBadges ++ l1 } uid b.id) uid
        ((getUserBadges s uid).map (fun ub => ub.badgeId))
        (s.badges.find? (fun x => x.name == "Moderator"))
        (fun st => REPUTATION_2000 st uid)
      rw [e3]
      apply (heldContains_iff _ uid b.id).mpr
      exact ⟨_, List.mem_append_left _
        (awardBadge_key_mem { s with userBadges := s.userBadges ++ l1 } uid b.id), rfl, rfl⟩

/-- After one badge evaluation, the Moderator block can never fire again. -/
theorem run1_moderator (s : State) (uid : String) (b : Badge)
    (hfind : s.badges.find? (fun x => x.name == "Moderator") = some b) :
    heldContains (checkAndAwardBadges s uid) uid b.id ∨
      REPUTATION_2000 (checkAndAwardBadges s uid) uid = false := by
  simp only [checkAndAwardBadges, hfind]
  obtain ⟨l12, e12⟩ := tryAward2_append s uid
    ((getUserBadges s uid).map (fun ub => ub.badgeId))
    (s.badges.find? (fun x => x.name == "First CoT Prompt"))
    (s.badges.find? (fun x => x.name == "Reviewer"))
    (fun st => FIRST_COT st uid) (fun st => REPUTATION_500 st uid)
  rw [e12]
  cases hcb : ((getUserBadges s uid).map (fun ub => ub.badgeId)).contains b.id with
  | true =>
    left
    rw [tryAwardBadge_held _ _ _ _ _ hcb]
    apply (heldContains_iff _ uid b.id).mpr
    obtain ⟨ub, hub, hu1, hu2⟩ := (heldContains_iff s uid b.id).mp hcb
    exact ⟨ub, List.mem_append_left _ hub, hu1, hu2⟩
  | false =>
    cases h20 : REPUTATION_2000 s uid with
    | false =>
      right
      have h20f : (fun st => REPUTATION_2000 st uid)
        { s with userBadges := s.userBadges ++ l12 } = false := h20
      rw [tryAwardBadge_condFalse _ _ _ _ _ hcb h20f]
      exact h20
    | true =>
      left
      have h20t : (fun st => REPUTATION_2000 st uid)
        { s with userBadges := s.userBadges ++ l12 } = true := h20
      rw [tryAwardBadge_award _ _ _ _ _ hcb h20t]
      apply (heldContains_iff _ uid b.id).mpr
      exact ⟨_, awardBadge_key_mem { s with userBadges := s.userBadges ++ l12 } uid b.id,
        rfl, rfl⟩

/-- Running the badge evaluator twice equals running it once. -/
theorem checkAndAwardBadges_idem (s : State) (uid : String) :
    checkAndAwardBadges (checkAndAwardBadges s uid) uid = checkAndAwardBadges s uid := by
  have hb : (checkAndAwardBadges s uid).badges = s.badges := by
    obtain ⟨l, hl⟩ := checkAndAwardBadges_append s uid
    rw [hl]
  apply checkAndAwardBadges_noop
  · intro b hfind
    rw [hb] at hfind
    exact run1_first_cot s uid b hfind
  · intro b hfind
    rw [hb] at hfind
    exact run1_reviewer s uid b hfind
  · intro b hfind
    rw [hb] at hfind
    exact run1_moderator s uid b hfind

/-- C8: every state reachable from a state with unique user_badges keys
still has at most one row per (userId, badgeId), and re-running the badge
evaluator is idempotent: the second run changes nothing. -/
theorem userBadges_unique_and_idempotent :
    (∀ s0 s : State, badgesOnce s0 → ReachableFrom s0 s → badgesOnce s)
    ∧ ∀ (s : State) (uid : String),
        checkAndAwardBadges (checkAndAwardBadges s uid) uid = checkAndAwardBadges s uid := by
  constructor
  · intro s0 s h0 hr
    induction hr with
    | refl => exact h0
    | step op hr ih => exact badgesOnce_applyOp _ op ih
  · exact checkAndAwardBadges_idem

/-- Witness: badge uniqueness and idempotent evaluation on the concrete
state W8. -/
theorem userBadges_unique_and_idempotent_witness :
    badgesOnce W8 ∧
      checkAndAwardBadges (checkAndAwardBadges W8 "u") "u" = checkAndAwardBadges W8 "u" :=
  ⟨userBadges_unique_and_idempotent.1 W8 W8 (by unfold badgesOnce; decide)
      (ReachableFrom.refl W8),
    userBadges_unique_and_idempotent.2 W8 "u"⟩

/-- Witness: approving the author's only prompt on the concrete state W3
yields +15 plus the +50 first-approval bonus. -/
theorem handleReviewSubmission_credits_witness :
    getUser (handleReviewSubmission (updatePromptStatus W3 "q"
        (reviewTransition ReviewVote.approve)) "q" "r" ReviewVote.approve) "w" =
      some { id := "w", reputation := 65 } := by
  have h := (handleReviewSubmission_credits W3 "q" "r" ReviewVote.approve
    { id := "q", authorId := "w", status := "pending_review", parentPromptId := none }
    { id := "w", reputation := 0 } rfl rfl).1
  exact h.trans (by decide)

end Issuepedia
